import Mathlib

/-!
Shallow embedding of the `simple-slice` mesh-slicing core
(`src/slicer/mesh_slicer.hpp`, `src/slicer/shapes.hpp`, `src/slicer/toolpath.hpp`)
with real coordinates modelled by `ℚ`.  Loops are modelled by structural
recursion on an explicit fuel equal to the decreasing measure of the loop; theorems
below show the fuel always suffices (the loop reaches its exit condition).
-/

namespace SimpleSlice

/-- A 3D point (`simple_slice::geometry::Point`), coordinates modelled by `ℚ`. -/
structure Point where
  x : ℚ
  y : ℚ
  z : ℚ
deriving DecidableEq, Repr

instance : Inhabited Point := ⟨⟨0, 0, 0⟩⟩

/-- A polyline path (`using Path = std::vector<Point>`). -/
abbrev Path := List Point

/-- Axis-aligned rectangle (`Rectangle` in `shapes.hpp`). -/
structure Rectangle where
  min_x : ℚ
  min_y : ℚ
  max_x : ℚ
  max_y : ℚ
deriving DecidableEq, Repr

/-- Constructor `Rectangle::Rectangle`: stores the four arguments, then throws
`std::invalid_argument` when `min_x > max_x || min_y > max_y`. -/
def Rectangle.make (min_x_in min_y_in max_x_in max_y_in : ℚ) : Except String Rectangle :=
  if min_x_in > max_x_in ∨ min_y_in > max_y_in then
    Except.error "Rectangle: min must be <= max on all axes"
  else
    Except.ok ⟨min_x_in, min_y_in, max_x_in, max_y_in⟩

/-- Circle (`Circle` in `shapes.hpp`). -/
structure Circle where
  center_x : ℚ
  center_y : ℚ
  radius : ℚ
deriving DecidableEq, Repr

/-- Constructor `Circle::Circle`: stores the arguments, then throws `std::invalid_argument`
when `radius <= 0`. -/
def Circle.make (center_x_in center_y_in radius_in : ℚ) : Except String Circle :=
  if radius_in ≤ 0 then
    Except.error "Circle: radius must be positive"
  else
    Except.ok ⟨center_x_in, center_y_in, radius_in⟩

/-- Triangle in 3D (`Triangle` in `shapes.hpp`). -/
structure Triangle where
  a : Point
  b : Point
  c : Point
deriving DecidableEq, Repr

instance : Inhabited Triangle := ⟨⟨default, default, default⟩⟩

/-- A single Z layer containing 2D paths (`Layer` in `shapes.hpp`). -/
structure Layer where
  z : ℚ
  paths : List Path
deriving DecidableEq, Repr

instance : Inhabited Layer := ⟨⟨0, []⟩⟩

/-- A 2D line segment in the XY plane (`Segment2D`). -/
structure Segment2D where
  start_point : Point
  end_point : Point
deriving DecidableEq, Repr

instance : Inhabited Segment2D := ⟨⟨default, default⟩⟩

/-- Predicate `points_close_2d`: `|Δx| ≤ ε ∧ |Δy| ≤ ε` in XY. -/
def points_close_2d (point1 point2 : Point) (epsilon : ℚ) : Bool :=
  decide (|point1.x - point2.x| ≤ epsilon) && decide (|point1.y - point2.y| ≤ epsilon)

/-- Function `add_unique_point`: append `point` unless some existing point is already
close to it in XY. -/
def add_unique_point (points : List Point) (point : Point) (epsilon : ℚ) : List Point :=
  if points.any (fun existing_point => points_close_2d existing_point point epsilon) then
    points
  else
    points ++ [point]

/-- One iteration of the edge loop of `triangle_plane_segment` for the edge
`p0 → p1`, threading the `intersections` accumulator. -/
def process_edge (intersections : List Point) (p0 p1 : Point) (plane_height epsilon : ℚ) :
    List Point :=
  let d0 := p0.z - plane_height
  let d1 := p1.z - plane_height
  if |d0| ≤ epsilon ∧ |d1| ≤ epsilon then
    intersections
  else if |d0| ≤ epsilon then
    add_unique_point intersections ⟨p0.x, p0.y, 0⟩ epsilon
  else if |d1| ≤ epsilon then
    add_unique_point intersections ⟨p1.x, p1.y, 0⟩ epsilon
  else if d0 * d1 < 0 then
    let t := d0 / (d0 - d1)
    add_unique_point intersections ⟨p0.x + t * (p1.x - p0.x), p0.y + t * (p1.y - p0.y), 0⟩ epsilon
  else
    intersections

/-- The full edge scan of `triangle_plane_segment` over the edges
`a→b`, `b→c`, `c→a`. -/
def triangle_intersections (triangle : Triangle) (plane_height epsilon : ℚ) : List Point :=
  process_edge
    (process_edge
      (process_edge [] triangle.a triangle.b plane_height epsilon)
      triangle.b triangle.c plane_height epsilon)
    triangle.c triangle.a plane_height epsilon

/-- Function `triangle_plane_segment`: returns `(true, segment)` when the edge scan
found exactly two intersections, otherwise `(false, output_segment)` where the
caller-supplied out-parameter is untouched. -/
def triangle_plane_segment (triangle : Triangle) (plane_height : ℚ)
    (output_segment : Segment2D) (epsilon : ℚ) : Bool × Segment2D :=
  match triangle_intersections triangle plane_height epsilon with
  | [p, q] => (true, ⟨p, q⟩)
  | _ => (false, output_segment)

/-- The intersector as the slicer calls it: the out-parameter starts as
a value-initialized `Segment2D{}` and the segment is kept only on `true`. -/
def triangle_plane_segment_opt (triangle : Triangle) (plane_height epsilon : ℚ) :
    Option Segment2D :=
  let result := triangle_plane_segment triangle plane_height default epsilon
  if result.1 then some result.2 else none

/-- One pass of the inner `for` loop of `stitch_segments_into_paths`: scan the
pool in order for the first segment matching the back or front of the path (in
the four-way check order of the source), returning the extended path together with the
pool with that segment erased (order preserved); `none` when no segment
matches. -/
def scan_attach (path : Path) (epsilon : ℚ) : List Segment2D → Option (Path × List Segment2D)
  | [] => none
  | seg :: rest =>
    if points_close_2d path.getLastI seg.start_point epsilon then
      some (path ++ [seg.end_point], rest)
    else if points_close_2d path.getLastI seg.end_point epsilon then
      some (path ++ [seg.start_point], rest)
    else if points_close_2d path.headI seg.start_point epsilon then
      some (seg.end_point :: path, rest)
    else if points_close_2d path.headI seg.end_point epsilon then
      some (seg.start_point :: path, rest)
    else
      match scan_attach path epsilon rest with
      | some (newPath, restAfter) => some (newPath, seg :: restAfter)
      | none => none

/-- The inner `while (found_match)` loop: repeat `scan_attach` until no match.
Each successful scan removes one segment from the pool, so fuel equal to the
pool size makes this the exact loop (see `stitch_loop_complete`). -/
def stitch_loop : Nat → Path → List Segment2D → ℚ → Path × List Segment2D
  | 0, path, segs, _ => (path, segs)
  | Nat.succ n, path, segs, epsilon =>
    match scan_attach path epsilon segs with
    | none => (path, segs)
    | some (newPath, rest) => stitch_loop n newPath rest epsilon

/-- The loop-closing step of `stitch_segments_into_paths`: if the path has more
than 2 points and its endpoints are nearly coincident, repeat the start. -/
def close_path (path : Path) (epsilon : ℚ) : Path :=
  if 2 < path.length ∧ points_close_2d path.headI path.getLastI epsilon = true then
    path ++ [path.headI]
  else
    path

/-- The outer `while (!line_segments.empty())` loop: seed a path from the
back element of the pool, grow it, close it, and recurse on the remaining pool.
Fuel equal to the pool size is exact since each round consumes the seed. -/
def stitch_outer : Nat → List Segment2D → ℚ → List Path
  | 0, _, _ => []
  | Nat.succ n, segs, epsilon =>
    match segs.getLast? with
    | none => []
    | some seed_segment =>
      let pool := segs.dropLast
      let grown :=
        stitch_loop pool.length [seed_segment.start_point, seed_segment.end_point] pool epsilon
      close_path grown.1 epsilon :: stitch_outer n grown.2 epsilon

/-- Function `stitch_segments_into_paths`. -/
def stitch_segments_into_paths (line_segments : List Segment2D) (epsilon : ℚ) : List Path :=
  stitch_outer line_segments.length line_segments epsilon

/-- Constant `simple_slice::geometry::kEpsilon = 1e-9`. -/
def kEpsilon : ℚ := 1 / 1000000000

/-- The local `tolerance` constant `1e-12` of `slice_triangle_mesh_layers`. -/
def layer_tolerance : ℚ := 1 / 1000000000000

/-- The `min_z` fold of `slice_triangle_mesh_layers`, seeded with
`triangles.front().a.z`. -/
def mesh_min_z (triangles : List Triangle) (seed : ℚ) : ℚ :=
  triangles.foldl (fun acc tri => min (min (min acc tri.a.z) tri.b.z) tri.c.z) seed

/-- The `max_z` fold of `slice_triangle_mesh_layers`. -/
def mesh_max_z (triangles : List Triangle) (seed : ℚ) : ℚ :=
  triangles.foldl (fun acc tri => max (max (max acc tri.a.z) tri.b.z) tri.c.z) seed

/-- The per-layer segment collection loop of `slice_triangle_mesh_layers`. -/
def layer_segments (triangles : List Triangle) (z : ℚ) : List Segment2D :=
  triangles.filterMap (fun tri => triangle_plane_segment_opt tri z kEpsilon)

/-- Function `slice_triangle_mesh_layers`. -/
def slice_triangle_mesh_layers (triangles : List Triangle) (layer_height : ℚ) : List Layer :=
  match triangles with
  | [] => []
  | t0 :: _ =>
    if layer_height ≤ 0 then []
    else
      let min_z := mesh_min_z triangles t0.a.z
      let max_z := mesh_max_z triangles t0.a.z
      let height := max_z - min_z
      if height < 0 then []
      else
        let layer_count := (⌊height / layer_height + 1 + layer_tolerance⌋).toNat
        (List.range layer_count).map fun i : ℕ =>
          let z := min_z + (i : ℚ) * layer_height
          Layer.mk z (stitch_segments_into_paths (layer_segments triangles z) (kEpsilon * 10))

/-- One G-code-like move command, abstracting a line of `toolpath.hpp` output:
`G0 Z<z>`, `G0 X<x> Y<y>`, or `G1 X<x> Y<y>`.  Coordinates are carried exactly
(the fixed-precision stream rendering is abstracted by the clamped precision
returned alongside the command list). -/
inductive GCmd where
  | rapidZ (z : ℚ)
  | rapidXY (x y : ℚ)
  | linearXY (x y : ℚ)
deriving DecidableEq, Repr

/-- Function `format_toolpath_gcode` (paths overload): clamp the precision, then for
each non-empty path emit `G0` to its first point and `G1` to each subsequent
point, accumulating output in stream order. -/
def format_toolpath_gcode (paths : List Path) (precision : Int) : Int × List GCmd :=
  let p := if precision < 0 then 0 else precision
  (p,
    paths.foldl
      (fun acc path =>
        match path with
        | [] => acc
        | start :: rest =>
          acc ++ (GCmd.rapidXY start.x start.y :: rest.map fun q => GCmd.linearXY q.x q.y))
      [])

/-- Function `format_toolpath_gcode` (layers overload): clamp the precision, then per
layer emit `G0 Z` followed by the output of the paths overload for that layer. -/
def format_toolpath_gcode_layers (layers : List Layer) (precision : Int) : Int × List GCmd :=
  let p := if precision < 0 then 0 else precision
  (p,
    layers.foldl
      (fun acc layer => acc ++ (GCmd.rapidZ layer.z :: (format_toolpath_gcode layer.paths p).2))
      [])

/-- The emission structure as the spec describes it, written independently of
the accumulator loops above: per layer one height-change command, then per
non-empty path one rapid move for the first point and one linear move per
subsequent point; empty paths emit nothing. -/
def gcode_layers_spec (layers : List Layer) : List GCmd :=
  (layers.map fun layer =>
    GCmd.rapidZ layer.z ::
      (layer.paths.map fun path =>
        match path with
        | [] => []
        | start :: rest =>
          GCmd.rapidXY start.x start.y :: rest.map fun q => GCmd.linearXY q.x q.y).flatten).flatten

/-- A unit cube mesh, two triangles per face (the example mesh of the spec). -/
def unit_cube : List Triangle :=
  [ -- bottom face (z = 0)
    ⟨⟨0, 0, 0⟩, ⟨1, 0, 0⟩, ⟨1, 1, 0⟩⟩,
    ⟨⟨0, 0, 0⟩, ⟨1, 1, 0⟩, ⟨0, 1, 0⟩⟩,
    -- top face (z = 1)
    ⟨⟨0, 0, 1⟩, ⟨1, 0, 1⟩, ⟨1, 1, 1⟩⟩,
    ⟨⟨0, 0, 1⟩, ⟨1, 1, 1⟩, ⟨0, 1, 1⟩⟩,
    -- front face (y = 0)
    ⟨⟨0, 0, 0⟩, ⟨1, 0, 0⟩, ⟨1, 0, 1⟩⟩,
    ⟨⟨0, 0, 0⟩, ⟨1, 0, 1⟩, ⟨0, 0, 1⟩⟩,
    -- back face (y = 1)
    ⟨⟨0, 1, 0⟩, ⟨1, 1, 0⟩, ⟨1, 1, 1⟩⟩,
    ⟨⟨0, 1, 0⟩, ⟨1, 1, 1⟩, ⟨0, 1, 1⟩⟩,
    -- left face (x = 0)
    ⟨⟨0, 0, 0⟩, ⟨0, 1, 0⟩, ⟨0, 1, 1⟩⟩,
    ⟨⟨0, 0, 0⟩, ⟨0, 1, 1⟩, ⟨0, 0, 1⟩⟩,
    -- right face (x = 1)
    ⟨⟨1, 0, 0⟩, ⟨1, 1, 0⟩, ⟨1, 1, 1⟩⟩,
    ⟨⟨1, 0, 0⟩, ⟨1, 1, 1⟩, ⟨1, 0, 1⟩⟩ ]

/-- The four boundary segments of the unit square, corner to adjacent corner. -/
def unit_square_segments : List Segment2D :=
  [ ⟨⟨0, 0, 0⟩, ⟨1, 0, 0⟩⟩,
    ⟨⟨1, 0, 0⟩, ⟨1, 1, 0⟩⟩,
    ⟨⟨1, 1, 0⟩, ⟨0, 1, 0⟩⟩,
    ⟨⟨0, 1, 0⟩, ⟨0, 0, 0⟩⟩ ]

/-- The stitching tolerance the slicer uses: `kEpsilon * 10`. -/
def stitch_epsilon : ℚ := kEpsilon * 10

/-- Reverse the endpoint orientation of a segment when the flag is set. -/
def orient_segment (seg : Segment2D) (flip : Bool) : Segment2D :=
  if flip then ⟨seg.end_point, seg.start_point⟩ else seg

/-- All ways of inserting `x` into a list, used to enumerate permutations
structurally (so the enumeration evaluates inside the kernel). -/
def insert_everywhere (x : α) : List α → List (List α)
  | [] => [[x]]
  | y :: ys => (x :: y :: ys) :: (insert_everywhere x ys).map (y :: ·)

/-- All permutations of a list, by structural recursion. -/
def all_perms : List α → List (List α)
  | [] => [[]]
  | x :: xs => ((all_perms xs).map (insert_everywhere x)).flatten

/-- All ways of presenting the unit square boundary to the stitcher: every
per-segment endpoint orientation (2^4) and every input order (4!). -/
def square_inputs : List (List Segment2D) :=
  ([false, true].map fun b0 =>
    [false, true].map fun b1 =>
      [false, true].map fun b2 =>
        [false, true].map fun b3 =>
          all_perms (List.zipWith orient_segment unit_square_segments [b0, b1, b2, b3])
  ).flatten.flatten.flatten.flatten

/-- The four corners of the unit square. -/
def square_corners : List Point :=
  [⟨0, 0, 0⟩, ⟨1, 0, 0⟩, ⟨1, 1, 0⟩, ⟨0, 1, 0⟩]

/-- Checker for the amended square-stitching result: exactly one path of
exactly 6 points that contains every corner, whose first point recurs as its
5th point (the chain returning to its start) and as its 6th point (the
repeat made by the closing step), so in particular first and last coincide. -/
def square_stitch_ok (paths : List Path) : Bool :=
  match paths with
  | [p] =>
    p.length == 6 && (p.getD 4 default == p.headI) && (p.getD 5 default == p.headI) &&
      square_corners.all (fun c => p.contains c)
  | _ => false

/-! ## Helper lemmas about the intersector -/

theorem add_unique_point_z {points : List Point} {point : Point} {epsilon : ℚ}
    (hl : ∀ q ∈ points, q.z = 0) (hp : point.z = 0) :
    ∀ q ∈ add_unique_point points point epsilon, q.z = 0 := by
  unfold add_unique_point
  split
  · exact hl
  · intro q hq
    rcases List.mem_append.1 hq with h | h
    · exact hl q h
    · rw [List.mem_singleton] at h
      subst h
      exact hp

theorem add_unique_point_pairwise {points : List Point} {point : Point} {epsilon : ℚ}
    (h : points.Pairwise (fun p q => points_close_2d p q epsilon = false)) :
    (add_unique_point points point epsilon).Pairwise
      (fun p q => points_close_2d p q epsilon = false) := by
  unfold add_unique_point
  split
  · exact h
  · rename_i hany
    simp only [Bool.not_eq_true, List.any_eq_false] at hany
    refine List.pairwise_append.2 ⟨h, List.pairwise_singleton _ _, ?_⟩
    intro a ha b hb
    rw [List.mem_singleton] at hb
    subst hb
    exact hany a ha

theorem process_edge_z {intersections : List Point} {p0 p1 : Point}
    {plane_height epsilon : ℚ} (h : ∀ q ∈ intersections, q.z = 0) :
    ∀ q ∈ process_edge intersections p0 p1 plane_height epsilon, q.z = 0 := by
  simp only [process_edge]
  repeat' split
  all_goals first
    | exact h
    | exact add_unique_point_z h rfl

theorem process_edge_pairwise {intersections : List Point} {p0 p1 : Point}
    {plane_height epsilon : ℚ}
    (h : intersections.Pairwise (fun p q => points_close_2d p q epsilon = false)) :
    (process_edge intersections p0 p1 plane_height epsilon).Pairwise
      (fun p q => points_close_2d p q epsilon = false) := by
  simp only [process_edge]
  repeat' split
  all_goals first
    | exact h
    | exact add_unique_point_pairwise h

theorem triangle_intersections_z {triangle : Triangle} {plane_height epsilon : ℚ} :
    ∀ q ∈ triangle_intersections triangle plane_height epsilon, q.z = 0 := by
  unfold triangle_intersections
  exact process_edge_z (process_edge_z (process_edge_z (by simp)))

theorem triangle_intersections_pairwise {triangle : Triangle} {plane_height epsilon : ℚ} :
    (triangle_intersections triangle plane_height epsilon).Pairwise
      (fun p q => points_close_2d p q epsilon = false) := by
  unfold triangle_intersections
  exact process_edge_pairwise (process_edge_pairwise (process_edge_pairwise (by simp)))

theorem triangle_plane_segment_true_iff (triangle : Triangle) (plane_height : ℚ)
    (output_segment : Segment2D) (epsilon : ℚ) :
    (triangle_plane_segment triangle plane_height output_segment epsilon).1 = true ↔
      (triangle_intersections triangle plane_height epsilon).length = 2 := by
  unfold triangle_plane_segment
  rcases hl : triangle_intersections triangle plane_height epsilon with _ | ⟨p, _ | ⟨q, _ | ⟨r, t⟩⟩⟩ <;>
    simp

/-- Skipped edge: both endpoints within tolerance of the plane. -/
theorem process_edge_coplanar {intersections : List Point} {p0 p1 : Point}
    {plane_height epsilon : ℚ} (h0 : |p0.z - plane_height| ≤ epsilon)
    (h1 : |p1.z - plane_height| ≤ epsilon) :
    process_edge intersections p0 p1 plane_height epsilon = intersections := by
  simp only [process_edge]
  rw [if_pos ⟨h0, h1⟩]

/-- Skipped edge: both endpoints strictly above the tolerance band. -/
theorem process_edge_above {intersections : List Point} {p0 p1 : Point}
    {plane_height epsilon : ℚ} (heps : 0 ≤ epsilon)
    (h0 : epsilon < p0.z - plane_height) (h1 : epsilon < p1.z - plane_height) :
    process_edge intersections p0 p1 plane_height epsilon = intersections := by
  simp only [process_edge]
  split
  · rename_i h
    exact absurd ((abs_le.1 h.1).2) (not_le.2 h0)
  split
  · rename_i h
    exact absurd ((abs_le.1 h).2) (not_le.2 h0)
  split
  · rename_i h
    exact absurd ((abs_le.1 h).2) (not_le.2 h1)
  split
  · rename_i h
    have hp0 : 0 < p0.z - plane_height := lt_of_le_of_lt heps h0
    have hp1 : 0 < p1.z - plane_height := lt_of_le_of_lt heps h1
    exact absurd h (not_lt.2 (le_of_lt (mul_pos hp0 hp1)))
  · rfl

/-- Skipped edge: both endpoints strictly below the tolerance band. -/
theorem process_edge_below {intersections : List Point} {p0 p1 : Point}
    {plane_height epsilon : ℚ} (heps : 0 ≤ epsilon)
    (h0 : p0.z - plane_height < -epsilon) (h1 : p1.z - plane_height < -epsilon) :
    process_edge intersections p0 p1 plane_height epsilon = intersections := by
  simp only [process_edge]
  split
  · rename_i h
    exact absurd ((abs_le.1 h.1).1) (not_le.2 h0)
  split
  · rename_i h
    exact absurd ((abs_le.1 h).1) (not_le.2 h0)
  split
  · rename_i h
    exact absurd ((abs_le.1 h).1) (not_le.2 h1)
  split
  · rename_i h
    have hp0 : p0.z - plane_height < 0 := lt_of_lt_of_le h0 (neg_nonpos.2 heps)
    have hp1 : p1.z - plane_height < 0 := lt_of_lt_of_le h1 (neg_nonpos.2 heps)
    exact absurd h (not_lt.2 (le_of_lt (mul_pos_of_neg_of_neg hp0 hp1)))
  · rfl

theorem triangle_plane_segment_eq_of_two {triangle : Triangle} {plane_height epsilon : ℚ}
    (output_segment : Segment2D) {p q : Point}
    (hl : triangle_intersections triangle plane_height epsilon = [p, q]) :
    triangle_plane_segment triangle plane_height output_segment epsilon = (true, ⟨p, q⟩) := by
  unfold triangle_plane_segment
  rw [hl]

theorem triangle_plane_segment_eq_of_not_two {triangle : Triangle} {plane_height epsilon : ℚ}
    (output_segment : Segment2D)
    (hl : ¬(triangle_intersections triangle plane_height epsilon).length = 2) :
    triangle_plane_segment triangle plane_height output_segment epsilon =
      (false, output_segment) := by
  unfold triangle_plane_segment
  rcases hll : triangle_intersections triangle plane_height epsilon with _ | ⟨p, _ | ⟨q, _ | ⟨r, t⟩⟩⟩
  · rfl
  · rfl
  · exact absurd (by rw [hll]; rfl) hl
  · rfl

/-! ## Claim C1 -/

/-- C1: `triangle_plane_segment` emits a segment (returns `true`) if and only
if its edge scan collects exactly two deduplicated intersection points; any
other count returns `false` with no segment emitted.  When a segment is
emitted, its endpoints are not within `epsilon` of each other in both x and y,
and both endpoints have z coordinate exactly 0. -/
theorem triangle_plane_segment_result_policy (triangle : Triangle) (plane_height : ℚ)
    (output_segment : Segment2D) (epsilon : ℚ) :
    ((triangle_plane_segment triangle plane_height output_segment epsilon).1 = true ↔
      (triangle_intersections triangle plane_height epsilon).length = 2) ∧
    ((triangle_plane_segment triangle plane_height output_segment epsilon).1 = true →
      points_close_2d
          (triangle_plane_segment triangle plane_height output_segment epsilon).2.start_point
          (triangle_plane_segment triangle plane_height output_segment epsilon).2.end_point
          epsilon = false ∧
        (triangle_plane_segment triangle plane_height output_segment epsilon).2.start_point.z = 0 ∧
        (triangle_plane_segment triangle plane_height output_segment epsilon).2.end_point.z = 0) := by
  refine ⟨triangle_plane_segment_true_iff _ _ _ _, ?_⟩
  intro htrue
  have hz := @triangle_intersections_z triangle plane_height epsilon
  have hpw := @triangle_intersections_pairwise triangle plane_height epsilon
  have hlen := (triangle_plane_segment_true_iff triangle plane_height output_segment epsilon).1
    htrue
  obtain ⟨p, q, hl⟩ := List.length_eq_two.1 hlen
  rw [triangle_plane_segment_eq_of_two output_segment hl]
  rw [hl] at hz hpw
  rcases List.pairwise_cons.1 hpw with ⟨hpq, _⟩
  exact ⟨hpq q (List.mem_singleton_self q), hz p (by simp), hz q (by simp)⟩

unseal Rat.mul Rat.inv Rat.add Rat.sub in
set_option maxRecDepth 20000 in
set_option maxHeartbeats 2000000 in
/-- Witness for C1 at a triangle crossing the plane `z = 0`. -/
theorem triangle_plane_segment_result_policy_witness :
    (triangle_plane_segment ⟨⟨0, 0, -1⟩, ⟨1, 0, 1⟩, ⟨0, 1, 1⟩⟩ 0 default kEpsilon).1 = true ∧
    points_close_2d
        (triangle_plane_segment ⟨⟨0, 0, -1⟩, ⟨1, 0, 1⟩, ⟨0, 1, 1⟩⟩ 0 default kEpsilon).2.start_point
        (triangle_plane_segment ⟨⟨0, 0, -1⟩, ⟨1, 0, 1⟩, ⟨0, 1, 1⟩⟩ 0 default kEpsilon).2.end_point
        kEpsilon = false :=
  ⟨by decide,
    ((triangle_plane_segment_result_policy ⟨⟨0, 0, -1⟩, ⟨1, 0, 1⟩, ⟨0, 1, 1⟩⟩ 0 default
        kEpsilon).2 (by decide)).1⟩

/-! ## Claim C5 -/

/-- C5: a triangle fully above the plane (each `z - h > ε`), fully below it
(each `z - h < -ε`), or fully coplanar with it (each `|z - h| ≤ ε`) produces
no segment. -/
theorem triangle_plane_segment_skips_noncrossing (triangle : Triangle) (plane_height : ℚ)
    (output_segment : Segment2D) (epsilon : ℚ) (heps : 0 ≤ epsilon)
    (hcase :
      (epsilon < triangle.a.z - plane_height ∧ epsilon < triangle.b.z - plane_height ∧
        epsilon < triangle.c.z - plane_height) ∨
      (triangle.a.z - plane_height < -epsilon ∧ triangle.b.z - plane_height < -epsilon ∧
        triangle.c.z - plane_height < -epsilon) ∨
      (|triangle.a.z - plane_height| ≤ epsilon ∧ |triangle.b.z - plane_height| ≤ epsilon ∧
        |triangle.c.z - plane_height| ≤ epsilon)) :
    (triangle_plane_segment triangle plane_height output_segment epsilon).1 = false := by
  have hempty : triangle_intersections triangle plane_height epsilon = [] := by
    unfold triangle_intersections
    rcases hcase with ⟨ha, hb, hc⟩ | ⟨ha, hb, hc⟩ | ⟨ha, hb, hc⟩
    · rw [process_edge_above heps ha hb, process_edge_above heps hb hc,
        process_edge_above heps hc ha]
    · rw [process_edge_below heps ha hb, process_edge_below heps hb hc,
        process_edge_below heps hc ha]
    · rw [process_edge_coplanar ha hb, process_edge_coplanar hb hc,
        process_edge_coplanar hc ha]
  have hne : ¬(triangle_plane_segment triangle plane_height output_segment epsilon).1 = true := by
    rw [triangle_plane_segment_true_iff, hempty]
    simp
  exact Bool.eq_false_iff.2 hne

unseal Rat.mul Rat.inv Rat.add Rat.sub in
set_option maxRecDepth 20000 in
set_option maxHeartbeats 2000000 in
/-- Witness for C5 at a triangle fully above the plane `z = 0`. -/
theorem triangle_plane_segment_skips_noncrossing_witness :
    (0 ≤ kEpsilon ∧ kEpsilon < (1 : ℚ) - 0) ∧
    (triangle_plane_segment ⟨⟨0, 0, 1⟩, ⟨1, 0, 1⟩, ⟨0, 1, 1⟩⟩ 0 default kEpsilon).1 = false :=
  ⟨⟨by decide, by decide⟩,
    triangle_plane_segment_skips_noncrossing ⟨⟨0, 0, 1⟩, ⟨1, 0, 1⟩, ⟨0, 1, 1⟩⟩ 0 default kEpsilon
      (by decide) (Or.inl ⟨by decide, by decide, by decide⟩)⟩

/-! ## Claim C7 -/

/-- C7: an empty triangle list or a non-positive layer height yields an empty
layer list (an empty result, not an error). -/
theorem slice_triangle_mesh_layers_trivial_input (triangles : List Triangle)
    (layer_height : ℚ) (h : triangles = [] ∨ layer_height ≤ 0) :
    slice_triangle_mesh_layers triangles layer_height = [] := by
  rcases h with rfl | h
  · rfl
  · cases triangles with
    | nil => rfl
    | cons t0 rest =>
      simp only [slice_triangle_mesh_layers]
      rw [if_pos h]

/-- Witness for C7 at an empty mesh and at a zero layer height. -/
theorem slice_triangle_mesh_layers_trivial_input_witness :
    slice_triangle_mesh_layers [] 1 = [] ∧
    slice_triangle_mesh_layers [⟨⟨0, 0, 0⟩, ⟨1, 0, 0⟩, ⟨0, 1, 0⟩⟩] 0 = [] :=
  ⟨slice_triangle_mesh_layers_trivial_input [] 1 (Or.inl rfl),
    slice_triangle_mesh_layers_trivial_input [⟨⟨0, 0, 0⟩, ⟨1, 0, 0⟩, ⟨0, 1, 0⟩⟩] 0
      (Or.inr le_rfl)⟩

/-! ## Claim C8 -/

/-- C8: `Rectangle` construction fails exactly when `min_x > max_x` or
`min_y > max_y`, `Circle` construction fails exactly when `radius ≤ 0`, and on
success the stored fields equal the constructor arguments unchanged. -/
theorem shape_constructors_validate (min_x_in min_y_in max_x_in max_y_in : ℚ)
    (center_x_in center_y_in radius_in : ℚ) :
    ((Rectangle.make min_x_in min_y_in max_x_in max_y_in).toOption = none ↔
      (min_x_in > max_x_in ∨ min_y_in > max_y_in)) ∧
    (∀ rect, Rectangle.make min_x_in min_y_in max_x_in max_y_in = Except.ok rect →
      rect.min_x = min_x_in ∧ rect.min_y = min_y_in ∧
        rect.max_x = max_x_in ∧ rect.max_y = max_y_in) ∧
    ((Circle.make center_x_in center_y_in radius_in).toOption = none ↔ radius_in ≤ 0) ∧
    (∀ circ, Circle.make center_x_in center_y_in radius_in = Except.ok circ →
      circ.center_x = center_x_in ∧ circ.center_y = center_y_in ∧ circ.radius = radius_in) := by
  unfold Rectangle.make Circle.make
  refine ⟨?_, ?_, ?_, ?_⟩
  · split <;> rename_i hcond <;> simp [Except.toOption, hcond]
  · intro rect hrect
    split at hrect
    · exact absurd hrect (by simp)
    · cases hrect
      exact ⟨rfl, rfl, rfl, rfl⟩
  · split <;> rename_i hcond <;> simp [Except.toOption, hcond]
  · intro circ hcirc
    split at hcirc
    · exact absurd hcirc (by simp)
    · cases hcirc
      exact ⟨rfl, rfl, rfl⟩

/-- Witness for C8 on a valid rectangle and a valid circle. -/
theorem shape_constructors_validate_witness :
    Rectangle.make 0 0 2 3 = Except.ok ⟨0, 0, 2, 3⟩ ∧
    (⟨0, 0, 2, 3⟩ : Rectangle).min_x = 0 ∧
    Circle.make 0 0 5 = Except.ok ⟨0, 0, 5⟩ ∧
    (⟨0, 0, 5⟩ : Circle).radius = 5 := by
  have h := shape_constructors_validate 0 0 2 3 0 0 5
  have hrect : Rectangle.make 0 0 2 3 = Except.ok ⟨0, 0, 2, 3⟩ := by
    unfold Rectangle.make
    rw [if_neg]
    simp
  have hcirc : Circle.make 0 0 5 = Except.ok ⟨0, 0, 5⟩ := by
    unfold Circle.make
    rw [if_neg]
    simp
  exact ⟨hrect, (h.2.1 ⟨0, 0, 2, 3⟩ hrect).1, hcirc, (h.2.2.2 ⟨0, 0, 5⟩ hcirc).2.2 ▸ rfl⟩

/-! ## Claim C10 -/

/-- C10: whenever `triangle_plane_segment` returns `false`, the caller-supplied
output segment is returned exactly as it was passed in. -/
theorem triangle_plane_segment_frame (triangle : Triangle) (plane_height : ℚ)
    (output_segment : Segment2D) (epsilon : ℚ)
    (h : (triangle_plane_segment triangle plane_height output_segment epsilon).1 = false) :
    (triangle_plane_segment triangle plane_height output_segment epsilon).2 = output_segment := by
  by_cases hlen : (triangle_intersections triangle plane_height epsilon).length = 2
  · obtain ⟨p, q, hl⟩ := List.length_eq_two.1 hlen
    rw [triangle_plane_segment_eq_of_two output_segment hl] at h
    exact absurd h (by simp)
  · rw [triangle_plane_segment_eq_of_not_two output_segment hlen]

unseal Rat.mul Rat.inv Rat.add Rat.sub in
set_option maxRecDepth 20000 in
set_option maxHeartbeats 2000000 in
/-- Witness for C10 at a coplanar triangle (which returns `false`) and a
distinctive out-parameter value. -/
theorem triangle_plane_segment_frame_witness :
    (triangle_plane_segment ⟨⟨0, 0, 0⟩, ⟨1, 0, 0⟩, ⟨0, 1, 0⟩⟩ 0
        ⟨⟨5, 6, 7⟩, ⟨8, 9, 10⟩⟩ kEpsilon).1 = false ∧
    (triangle_plane_segment ⟨⟨0, 0, 0⟩, ⟨1, 0, 0⟩, ⟨0, 1, 0⟩⟩ 0
        ⟨⟨5, 6, 7⟩, ⟨8, 9, 10⟩⟩ kEpsilon).2 = ⟨⟨5, 6, 7⟩, ⟨8, 9, 10⟩⟩ :=
  ⟨by decide,
    triangle_plane_segment_frame ⟨⟨0, 0, 0⟩, ⟨1, 0, 0⟩, ⟨0, 1, 0⟩⟩ 0
      ⟨⟨5, 6, 7⟩, ⟨8, 9, 10⟩⟩ kEpsilon (by decide)⟩

/-! ## Helper lemmas about the stitcher -/

theorem scan_attach_some {path : Path} {epsilon : ℚ} {segs : List Segment2D}
    {newPath : Path} {rest : List Segment2D}
    (h : scan_attach path epsilon segs = some (newPath, rest)) :
    newPath.length = path.length + 1 ∧ rest.length + 1 = segs.length := by
  induction segs generalizing newPath rest with
  | nil => simp [scan_attach] at h
  | cons seg rest0 ih =>
    unfold scan_attach at h
    split at h
    · obtain ⟨h1, h2⟩ := Prod.mk.inj (Option.some.inj h)
      subst h1
      subst h2
      simp
    split at h
    · obtain ⟨h1, h2⟩ := Prod.mk.inj (Option.some.inj h)
      subst h1
      subst h2
      simp
    split at h
    · obtain ⟨h1, h2⟩ := Prod.mk.inj (Option.some.inj h)
      subst h1
      subst h2
      simp
    split at h
    · obtain ⟨h1, h2⟩ := Prod.mk.inj (Option.some.inj h)
      subst h1
      subst h2
      simp
    · cases hrec : scan_attach path epsilon rest0 with
      | none =>
        rw [hrec] at h
        simp at h
      | some val =>
        rcases val with ⟨np, ra⟩
        rw [hrec] at h
        obtain ⟨h1, h2⟩ := Prod.mk.inj (Option.some.inj h)
        subst h1
        subst h2
        obtain ⟨ih1, ih2⟩ := ih hrec
        constructor
        · exact ih1
        · simp only [List.length_cons]
          omega

theorem stitch_loop_sum (n : Nat) (path : Path) (segs : List Segment2D) (epsilon : ℚ) :
    (stitch_loop n path segs epsilon).1.length + (stitch_loop n path segs epsilon).2.length =
      path.length + segs.length := by
  induction n generalizing path segs with
  | zero => rfl
  | succ n ih =>
    unfold stitch_loop
    cases hrec : scan_attach path epsilon segs with
    | none => rfl
    | some val =>
      rcases val with ⟨newPath, rest⟩
      obtain ⟨h1, h2⟩ := scan_attach_some hrec
      rw [ih]
      omega

theorem stitch_loop_fst_le (n : Nat) (path : Path) (segs : List Segment2D) (epsilon : ℚ) :
    path.length ≤ (stitch_loop n path segs epsilon).1.length := by
  induction n generalizing path segs with
  | zero => exact le_rfl
  | succ n ih =>
    unfold stitch_loop
    cases hrec : scan_attach path epsilon segs with
    | none => exact le_rfl
    | some val =>
      rcases val with ⟨newPath, rest⟩
      obtain ⟨h1, h2⟩ := scan_attach_some hrec
      calc path.length ≤ newPath.length := by omega
        _ ≤ (stitch_loop n newPath rest epsilon).1.length := ih newPath rest

theorem stitch_loop_snd_le (n : Nat) (path : Path) (segs : List Segment2D) (epsilon : ℚ) :
    (stitch_loop n path segs epsilon).2.length ≤ segs.length := by
  have hsum := stitch_loop_sum n path segs epsilon
  have hfst := stitch_loop_fst_le n path segs epsilon
  omega

theorem stitch_loop_complete (n : Nat) (path : Path) (segs : List Segment2D) (epsilon : ℚ)
    (h : segs.length ≤ n) :
    scan_attach (stitch_loop n path segs epsilon).1 epsilon
      (stitch_loop n path segs epsilon).2 = none := by
  induction n generalizing path segs with
  | zero =>
    have hnil : segs = [] := List.length_eq_zero.1 (Nat.le_zero.1 h)
    subst hnil
    rfl
  | succ n ih =>
    unfold stitch_loop
    cases hrec : scan_attach path epsilon segs with
    | none => exact hrec
    | some val =>
      rcases val with ⟨newPath, rest⟩
      obtain ⟨h1, h2⟩ := scan_attach_some hrec
      exact ih newPath rest (by omega)

theorem close_path_length (path : Path) (epsilon : ℚ) :
    path.length ≤ (close_path path epsilon).length ∧
      (close_path path epsilon).length ≤ path.length + 1 := by
  unfold close_path
  split <;> simp

theorem concat_getLastI (l : List Point) (x : Point) : (l ++ [x]).getLastI = x := by
  rw [List.getLastI_eq_getLast?, List.getLast?_concat]

theorem cons_headI (a : Point) (l : List Point) : (a :: l).headI = a := rfl

theorem stitch_outer_mem_length {epsilon : ℚ} :
    ∀ {n : Nat} {segs : List Segment2D} {p : Path},
      p ∈ stitch_outer n segs epsilon → 2 ≤ p.length := by
  intro n
  induction n with
  | zero =>
    intro segs p hp
    simp [stitch_outer] at hp
  | succ n ih =>
    intro segs p hp
    unfold stitch_outer at hp
    cases hget : segs.getLast? with
    | none =>
      rw [hget] at hp
      simp at hp
    | some seed =>
      rw [hget] at hp
      dsimp only at hp
      rcases List.mem_cons.1 hp with rfl | hmem
      · have h2 : 2 ≤ (stitch_loop segs.dropLast.length
            [seed.start_point, seed.end_point] segs.dropLast epsilon).1.length := by
          simpa using stitch_loop_fst_le segs.dropLast.length
            [seed.start_point, seed.end_point] segs.dropLast epsilon
        have := (close_path_length (stitch_loop segs.dropLast.length
            [seed.start_point, seed.end_point] segs.dropLast epsilon).1 epsilon).1
        omega
      · exact ih hmem

theorem stitch_outer_sum {epsilon : ℚ} :
    ∀ {n : Nat} {segs : List Segment2D}, segs.length ≤ n →
      segs.length + (stitch_outer n segs epsilon).length ≤
          ((stitch_outer n segs epsilon).map List.length).sum ∧
        ((stitch_outer n segs epsilon).map List.length).sum ≤
          segs.length + 2 * (stitch_outer n segs epsilon).length := by
  intro n
  induction n with
  | zero =>
    intro segs h
    have hnil : segs = [] := List.length_eq_zero.1 (Nat.le_zero.1 h)
    subst hnil
    simp [stitch_outer]
  | succ n ih =>
    intro segs h
    unfold stitch_outer
    cases hget : segs.getLast? with
    | none =>
      have hnil : segs = [] := List.getLast?_eq_none_iff.1 hget
      subst hnil
      simp
    | some seed =>
      have hne : segs ≠ [] := by
        intro hnil
        subst hnil
        simp at hget
      have hpool : segs.dropLast.length + 1 = segs.length := by
        have := List.length_dropLast segs
        cases segs with
        | nil => exact absurd rfl hne
        | cons s ss => simp [List.length_dropLast] at this ⊢
      dsimp only
      set grown := stitch_loop segs.dropLast.length
        [seed.start_point, seed.end_point] segs.dropLast epsilon with hgrown
      have hsum : grown.1.length + grown.2.length = 2 + segs.dropLast.length := by
        rw [hgrown]
        exact stitch_loop_sum _ _ _ _
      have hfst : 2 ≤ grown.1.length := by
        rw [hgrown]
        simpa using stitch_loop_fst_le segs.dropLast.length
          [seed.start_point, seed.end_point] segs.dropLast epsilon
      have hsnd : grown.2.length ≤ segs.dropLast.length := by
        rw [hgrown]
        exact stitch_loop_snd_le _ _ _ _
      obtain ⟨hlo, hhi⟩ := @ih grown.2 (by omega)
      obtain ⟨hc1, hc2⟩ := close_path_length grown.1 epsilon
      simp only [List.map_cons, List.sum_cons, List.length_cons]
      omega

/-! ## Claim C4 -/

/-- C4: every stitched Path (hence every Path in any emitted Layer) has at
least 2 points; a completed path is closed (start appended again) exactly when
it has more than 2 points and its endpoints are within tolerance; a closed
first and last points of a closed path coincide (hence are equal within
tolerance). -/
theorem stitched_path_invariants :
    (∀ (segs : List Segment2D) (epsilon : ℚ) (p : Path),
        p ∈ stitch_segments_into_paths segs epsilon → 2 ≤ p.length) ∧
    (∀ (path : Path) (epsilon : ℚ),
        close_path path epsilon ≠ path ↔
          2 < path.length ∧ points_close_2d path.headI path.getLastI epsilon = true) ∧
    (∀ (path : Path) (epsilon : ℚ), close_path path epsilon ≠ path →
        (close_path path epsilon).getLastI = (close_path path epsilon).headI ∧
          points_close_2d (close_path path epsilon).headI
            (close_path path epsilon).getLastI epsilon = true) ∧
    (∀ (triangles : List Triangle) (layer_height : ℚ) (layer : Layer),
        layer ∈ slice_triangle_mesh_layers triangles layer_height →
        ∀ p ∈ layer.paths, 2 ≤ p.length) := by
  have hmem : ∀ (segs : List Segment2D) (epsilon : ℚ) (p : Path),
      p ∈ stitch_segments_into_paths segs epsilon → 2 ≤ p.length := by
    intro segs epsilon p hp
    exact stitch_outer_mem_length hp
  have hiff : ∀ (path : Path) (epsilon : ℚ),
      close_path path epsilon ≠ path ↔
        2 < path.length ∧ points_close_2d path.headI path.getLastI epsilon = true := by
    intro path epsilon
    unfold close_path
    split
    · rename_i hcond
      simp only [ne_eq, iff_true_intro hcond, iff_true]
      intro heq
      have := congrArg List.length heq
      simp at this
    · rename_i hcond
      simp [hcond]
  have hclosed : ∀ (path : Path) (epsilon : ℚ), close_path path epsilon ≠ path →
      (close_path path epsilon).getLastI = (close_path path epsilon).headI ∧
        points_close_2d (close_path path epsilon).headI
          (close_path path epsilon).getLastI epsilon = true := by
    intro path epsilon hne
    obtain ⟨hlen, hclose⟩ := (hiff path epsilon).1 hne
    have heq : close_path path epsilon = path ++ [path.headI] := by
      unfold close_path
      rw [if_pos ⟨hlen, hclose⟩]
    rcases path with _ | ⟨a, t⟩
    · simp at hlen
    · have hlast : (close_path (a :: t) epsilon).getLastI = (a :: t).headI := by
        rw [heq, concat_getLastI]
      have hhead : (close_path (a :: t) epsilon).headI = a := by
        rw [heq]
        rfl
      have heps : 0 ≤ epsilon := by
        have hx : |(a :: t).headI.x - (a :: t).getLastI.x| ≤ epsilon := by
          have := hclose
          unfold points_close_2d at this
          simp only [Bool.and_eq_true, decide_eq_true_eq] at this
          exact this.1
        exact le_trans (abs_nonneg _) hx
      refine ⟨by rw [hlast, hhead]; rfl, ?_⟩
      rw [hlast, hhead]
      unfold points_close_2d
      simp [heps]
  refine ⟨hmem, hiff, hclosed, ?_⟩
  intro triangles layer_height layer hlayer p hp
  cases triangles with
  | nil => simp [slice_triangle_mesh_layers] at hlayer
  | cons t0 rest =>
    unfold slice_triangle_mesh_layers at hlayer
    dsimp only at hlayer
    split at hlayer
    · simp at hlayer
    · split at hlayer
      · simp at hlayer
      · obtain ⟨i, hi, hlayer⟩ := List.mem_map.1 hlayer
        subst hlayer
        exact hmem _ _ p hp

/-- Witness for C4 on the square input: its stitched path is in the output and
has at least 2 points, and the closing characterization holds on a concrete
3-point path. -/
theorem stitched_path_invariants_witness :
    (∀ p ∈ stitch_segments_into_paths unit_square_segments stitch_epsilon, 2 ≤ p.length) ∧
    (close_path [⟨0, 0, 0⟩, ⟨1, 0, 0⟩, ⟨0, 0, 0⟩] 1 ≠ [⟨0, 0, 0⟩, ⟨1, 0, 0⟩, ⟨0, 0, 0⟩] ↔
      2 < (3 : Nat) ∧ points_close_2d (⟨0, 0, 0⟩ : Point) (⟨0, 0, 0⟩ : Point) 1 = true) :=
  ⟨fun p hp => stitched_path_invariants.1 unit_square_segments stitch_epsilon p hp,
    stitched_path_invariants.2.1 [⟨0, 0, 0⟩, ⟨1, 0, 0⟩, ⟨0, 0, 0⟩] 1⟩

theorem stitch_outer_length_le {epsilon : ℚ} :
    ∀ {n : Nat} {segs : List Segment2D}, segs.length ≤ n →
      (stitch_outer n segs epsilon).length ≤ segs.length := by
  intro n
  induction n with
  | zero =>
    intro segs h
    have hnil : segs = [] := List.length_eq_zero.1 (Nat.le_zero.1 h)
    subst hnil
    simp [stitch_outer]
  | succ n ih =>
    intro segs h
    unfold stitch_outer
    cases hget : segs.getLast? with
    | none => simp
    | some seed =>
      have hne : segs ≠ [] := by
        intro hnil
        subst hnil
        simp at hget
      have hpool : segs.dropLast.length + 1 = segs.length := by
        cases segs with
        | nil => exact absurd rfl hne
        | cons s ss => simp [List.length_dropLast]
      dsimp only
      have hsnd : (stitch_loop segs.dropLast.length
          [seed.start_point, seed.end_point] segs.dropLast epsilon).2.length ≤
            segs.dropLast.length :=
        stitch_loop_snd_le _ _ _ _
      have hrec := @ih (stitch_loop segs.dropLast.length
          [seed.start_point, seed.end_point] segs.dropLast epsilon).2 (by omega)
      simp only [List.length_cons]
      omega

/-! ## Claim C6 -/

/-- C6: the stitcher is total and terminates on every finite input.  Its inner
loop always reaches the no-match exit state within fuel equal to the pool size;
every input segment is consumed (the output-path point counts account for all
input segments: a path of k points consumed k-1 segments, or k-2 when it was
closed, giving the two-sided bound below); at most one path is emitted per
consumed segment; the output is empty only on empty input; and a segment that
matches nothing becomes its own 2-point path. -/
theorem stitch_segments_into_paths_total :
    (∀ (segs : List Segment2D) (epsilon : ℚ),
        segs.length + (stitch_segments_into_paths segs epsilon).length ≤
            ((stitch_segments_into_paths segs epsilon).map List.length).sum ∧
          ((stitch_segments_into_paths segs epsilon).map List.length).sum ≤
            segs.length + 2 * (stitch_segments_into_paths segs epsilon).length) ∧
    (∀ (segs : List Segment2D) (epsilon : ℚ),
        (stitch_segments_into_paths segs epsilon).length ≤ segs.length) ∧
    (∀ (segs : List Segment2D) (epsilon : ℚ),
        stitch_segments_into_paths segs epsilon = [] ↔ segs = []) ∧
    (∀ (s : Segment2D) (epsilon : ℚ),
        stitch_segments_into_paths [s] epsilon = [[s.start_point, s.end_point]]) ∧
    (∀ (n : Nat) (path : Path) (segs : List Segment2D) (epsilon : ℚ), segs.length ≤ n →
        scan_attach (stitch_loop n path segs epsilon).1 epsilon
          (stitch_loop n path segs epsilon).2 = none) := by
  refine ⟨?_, ?_, ?_, ?_, ?_⟩
  · intro segs epsilon
    exact stitch_outer_sum le_rfl
  · intro segs epsilon
    exact stitch_outer_length_le le_rfl
  · intro segs epsilon
    constructor
    · intro hout
      by_contra hne
      cases segs with
      | nil => exact hne rfl
      | cons s ss =>
        unfold stitch_segments_into_paths at hout
        rw [List.length_cons] at hout
        unfold stitch_outer at hout
        cases hget : (s :: ss).getLast? with
        | none =>
          rw [List.getLast?_eq_none_iff] at hget
          simp at hget
        | some seed =>
          rw [hget] at hout
          simp at hout
    · intro hnil
      subst hnil
      rfl
  · intro s epsilon
    show stitch_outer 1 [s] epsilon = [[s.start_point, s.end_point]]
    unfold stitch_outer
    rfl
  · intro n path segs epsilon h
    exact stitch_loop_complete n path segs epsilon h

/-- Witness for C6: the accounting bound at a concrete 2-segment input, the
singleton behaviour at a concrete segment, and inner-loop completion at a
concrete state. -/
theorem stitch_segments_into_paths_total_witness :
    (2 + (stitch_segments_into_paths
        [⟨⟨0, 0, 0⟩, ⟨1, 0, 0⟩⟩, ⟨⟨1, 0, 0⟩, ⟨2, 0, 0⟩⟩] 1).length ≤
      ((stitch_segments_into_paths
        [⟨⟨0, 0, 0⟩, ⟨1, 0, 0⟩⟩, ⟨⟨1, 0, 0⟩, ⟨2, 0, 0⟩⟩] 1).map List.length).sum) ∧
    stitch_segments_into_paths [⟨⟨3, 4, 0⟩, ⟨5, 6, 0⟩⟩] 1 = [[⟨3, 4, 0⟩, ⟨5, 6, 0⟩]] ∧
    scan_attach (stitch_loop 0 [⟨0, 0, 0⟩] [] 1).1 1 (stitch_loop 0 [⟨0, 0, 0⟩] [] 1).2 = none :=
  ⟨(stitch_segments_into_paths_total.1
      [⟨⟨0, 0, 0⟩, ⟨1, 0, 0⟩⟩, ⟨⟨1, 0, 0⟩, ⟨2, 0, 0⟩⟩] 1).1,
    stitch_segments_into_paths_total.2.2.2.1 ⟨⟨3, 4, 0⟩, ⟨5, 6, 0⟩⟩ 1,
    stitch_segments_into_paths_total.2.2.2.2 0 [⟨0, 0, 0⟩] [] 1 le_rfl⟩

/-! ## Claim C3 -/

unseal Rat.mul Rat.inv Rat.add Rat.sub in
set_option maxRecDepth 1000000 in
set_option maxHeartbeats 4000000 in
/-- C3 counterexample: on the four boundary segments of the unit square (in
their natural order, natural orientations) the stitcher returns one path of
exactly 6 points, so the claimed "exactly one closed Path with exactly 5
points" is false at this input: the chain already returns to its start (5
points) and the closing step appends the start point once more. -/
theorem square_stitch_counterexample :
    (stitch_segments_into_paths unit_square_segments stitch_epsilon).map List.length = [6] ∧
    ¬((stitch_segments_into_paths unit_square_segments stitch_epsilon).length = 1 ∧
      ∀ p ∈ stitch_segments_into_paths unit_square_segments stitch_epsilon,
        p.length = 5) := by
  decide

unseal Rat.mul Rat.inv Rat.add Rat.sub in
set_option maxRecDepth 1000000 in
set_option maxHeartbeats 16000000 in
/-- C3 (amended): for every presentation of the four boundary
segments — all 4! input orders and all 2^4 per-segment endpoint orientations —
the stitcher returns exactly one path, and that path is closed with exactly
6 points: it contains all 4 corners, its first point recurs as its 5th point
(the chain returning to its start), and the closing step appends the first
point once more as the 6th point, so first and last coincide. -/
theorem square_stitch_amended :
    ∀ l ∈ square_inputs,
      square_stitch_ok (stitch_segments_into_paths l stitch_epsilon) = true := by
  decide

unseal Rat.mul Rat.inv Rat.add Rat.sub in
set_option maxRecDepth 1000000 in
set_option maxHeartbeats 4000000 in
/-- Witness for the amended C3 at the natural presentation of the square. -/
theorem square_stitch_amended_witness :
    unit_square_segments ∈ square_inputs ∧
    square_stitch_ok (stitch_segments_into_paths unit_square_segments stitch_epsilon) = true :=
  ⟨by decide, square_stitch_amended unit_square_segments (by decide)⟩

/-! ## Helper lemmas about the Z bounds of the slicer -/

theorem mesh_min_z_le_seed (triangles : List Triangle) (seed : ℚ) :
    mesh_min_z triangles seed ≤ seed := by
  induction triangles generalizing seed with
  | nil => exact le_rfl
  | cons t ts ih =>
    calc mesh_min_z (t :: ts) seed
        ≤ min (min (min seed t.a.z) t.b.z) t.c.z := ih _
      _ ≤ seed := by
        calc min (min (min seed t.a.z) t.b.z) t.c.z ≤ min (min seed t.a.z) t.b.z :=
            min_le_left _ _
          _ ≤ min seed t.a.z := min_le_left _ _
          _ ≤ seed := min_le_left _ _

theorem seed_le_mesh_max_z (triangles : List Triangle) (seed : ℚ) :
    seed ≤ mesh_max_z triangles seed := by
  induction triangles generalizing seed with
  | nil => exact le_rfl
  | cons t ts ih =>
    calc seed ≤ max (max (max seed t.a.z) t.b.z) t.c.z := by
          calc seed ≤ max seed t.a.z := le_max_left _ _
            _ ≤ max (max seed t.a.z) t.b.z := le_max_left _ _
            _ ≤ max (max (max seed t.a.z) t.b.z) t.c.z := le_max_left _ _
      _ ≤ mesh_max_z (t :: ts) seed := ih _

theorem mesh_min_le_max (triangles : List Triangle) (seed : ℚ) :
    mesh_min_z triangles seed ≤ mesh_max_z triangles seed :=
  le_trans (mesh_min_z_le_seed triangles seed) (seed_le_mesh_max_z triangles seed)

/-- The slicer on a non-empty mesh and positive layer height is the map of the
per-layer body over `List.range layer_count`. -/
theorem slice_triangle_mesh_layers_eq (t0 : Triangle) (rest : List Triangle)
    (layer_height : ℚ) (hpos : 0 < layer_height) :
    slice_triangle_mesh_layers (t0 :: rest) layer_height =
      (List.range (⌊(mesh_max_z (t0 :: rest) t0.a.z - mesh_min_z (t0 :: rest) t0.a.z)
          / layer_height + 1 + layer_tolerance⌋).toNat).map
        (fun i : ℕ =>
          Layer.mk (mesh_min_z (t0 :: rest) t0.a.z + (i : ℚ) * layer_height)
            (stitch_segments_into_paths
              (layer_segments (t0 :: rest)
                (mesh_min_z (t0 :: rest) t0.a.z + (i : ℚ) * layer_height))
              (kEpsilon * 10))) := by
  unfold slice_triangle_mesh_layers
  dsimp only
  rw [if_neg (not_le.2 hpos),
    if_neg (not_lt.2 (sub_nonneg.2 (mesh_min_le_max (t0 :: rest) t0.a.z)))]

/-! ## Claim C2 -/

unseal Rat.mul Rat.inv Rat.add Rat.sub in
set_option maxRecDepth 1000000 in
set_option maxHeartbeats 4000000 in
/-- C2: for a non-empty mesh and positive layer height the slicer emits
exactly `⌊(max_z - min_z)/Δz + 1 + 1e-12⌋` layers; the z of the i-th layer is
exactly `min_z + i·Δz`, so layers are strictly increasing in Z and the first
z of the first layer is exactly `min_z`; a layer whose plane intersects no triangle is
still emitted, with an empty path list; and slicing the unit cube with
`Δz = 1/2` yields layers at exactly z = 0, 1/2, 1, with `layers[0].z = 0`. -/
theorem slice_triangle_mesh_layers_spec (triangles : List Triangle) (layer_height : ℚ)
    (hne : triangles ≠ []) (hpos : 0 < layer_height) :
    ((slice_triangle_mesh_layers triangles layer_height).length =
      (⌊(mesh_max_z triangles triangles.headI.a.z - mesh_min_z triangles triangles.headI.a.z)
          / layer_height + 1 + layer_tolerance⌋).toNat) ∧
    (∀ (i : ℕ) (hi : i < (slice_triangle_mesh_layers triangles layer_height).length),
      ((slice_triangle_mesh_layers triangles layer_height).get ⟨i, hi⟩).z =
        mesh_min_z triangles triangles.headI.a.z + (i : ℚ) * layer_height) ∧
    (∀ (i : ℕ) (hi : i + 1 < (slice_triangle_mesh_layers triangles layer_height).length),
      ((slice_triangle_mesh_layers triangles layer_height).get
          ⟨i, Nat.lt_of_succ_lt hi⟩).z <
        ((slice_triangle_mesh_layers triangles layer_height).get ⟨i + 1, hi⟩).z) ∧
    0 < (slice_triangle_mesh_layers triangles layer_height).length ∧
    (∀ (i : ℕ) (hi : i < (slice_triangle_mesh_layers triangles layer_height).length),
      layer_segments triangles
          (mesh_min_z triangles triangles.headI.a.z + (i : ℚ) * layer_height) = [] →
      ((slice_triangle_mesh_layers triangles layer_height).get ⟨i, hi⟩).paths = []) ∧
    (slice_triangle_mesh_layers unit_cube (1 / 2)).map Layer.z = [0, 1 / 2, 1] := by
  obtain ⟨t0, rest, rfl⟩ := List.exists_cons_of_ne_nil hne
  have heq := slice_triangle_mesh_layers_eq t0 rest layer_height hpos
  have hhead : (t0 :: rest).headI = t0 := rfl
  rw [hhead]
  have hlen : (slice_triangle_mesh_layers (t0 :: rest) layer_height).length =
      (⌊(mesh_max_z (t0 :: rest) t0.a.z - mesh_min_z (t0 :: rest) t0.a.z)
          / layer_height + 1 + layer_tolerance⌋).toNat := by
    rw [heq]
    simp
  have hget : ∀ (i : ℕ) (hi : i < (slice_triangle_mesh_layers (t0 :: rest) layer_height).length),
      ((slice_triangle_mesh_layers (t0 :: rest) layer_height).get ⟨i, hi⟩).z =
        mesh_min_z (t0 :: rest) t0.a.z + (i : ℚ) * layer_height := by
    intro i hi
    have hi2 : i < ((List.range (⌊(mesh_max_z (t0 :: rest) t0.a.z -
        mesh_min_z (t0 :: rest) t0.a.z) / layer_height + 1 + layer_tolerance⌋).toNat).map
          (fun i : ℕ =>
            Layer.mk (mesh_min_z (t0 :: rest) t0.a.z + (i : ℚ) * layer_height)
              (stitch_segments_into_paths
                (layer_segments (t0 :: rest)
                  (mesh_min_z (t0 :: rest) t0.a.z + (i : ℚ) * layer_height))
                (kEpsilon * 10)))).length := by
      rw [← heq]
      exact hi
    have := List.get_of_eq heq ⟨i, hi⟩
    rw [this]
    simp
  refine ⟨hlen, hget, ?_, ?_, ?_, ?_⟩
  · intro i hi
    rw [hget i (Nat.lt_of_succ_lt hi), hget (i + 1) hi]
    have hcast : ((i + 1 : ℕ) : ℚ) = (i : ℚ) + 1 := by push_cast; ring
    rw [hcast]
    nlinarith [hpos]
  · have h1 : (1 : ℤ) ≤ ⌊(mesh_max_z (t0 :: rest) t0.a.z - mesh_min_z (t0 :: rest) t0.a.z)
        / layer_height + 1 + layer_tolerance⌋ := by
      rw [Int.le_floor]
      have hdiv : 0 ≤ (mesh_max_z (t0 :: rest) t0.a.z - mesh_min_z (t0 :: rest) t0.a.z)
          / layer_height :=
        div_nonneg (sub_nonneg.2 (mesh_min_le_max (t0 :: rest) t0.a.z)) hpos.le
      have htol : (0 : ℚ) < layer_tolerance := by norm_num [layer_tolerance]
      push_cast
      linarith
    rw [hlen]
    omega
  · intro i hi hsegs
    have := List.get_of_eq heq ⟨i, hi⟩
    rw [this]
    simp only [List.get_eq_getElem, List.getElem_map, List.getElem_range]
    rw [hsegs]
    rfl
  · decide

/-- Witness for C2 at the unit cube with layer height 1/2. -/
theorem slice_triangle_mesh_layers_spec_witness :
    unit_cube ≠ [] ∧ 0 < (1 / 2 : ℚ) ∧
    (slice_triangle_mesh_layers unit_cube (1 / 2)).map Layer.z = [0, 1 / 2, 1] :=
  ⟨by decide, by norm_num,
    (slice_triangle_mesh_layers_spec unit_cube (1 / 2) (by decide) (by norm_num)).2.2.2.2.2⟩

/-! ## Helper lemmas about the G-code formatter -/

theorem gcode_paths_fold (paths : List Path) (acc : List GCmd) :
    paths.foldl
      (fun acc path =>
        match path with
        | [] => acc
        | start :: rest =>
          acc ++ (GCmd.rapidXY start.x start.y :: rest.map fun q => GCmd.linearXY q.x q.y))
      acc =
    acc ++ (paths.map fun path =>
      match path with
      | [] => ([] : List GCmd)
      | start :: rest =>
        GCmd.rapidXY start.x start.y :: rest.map fun q => GCmd.linearXY q.x q.y).flatten := by
  induction paths generalizing acc with
  | nil => simp
  | cons p ps ih =>
    cases p with
    | nil => simp [ih]
    | cons s r => simp [ih]

theorem format_toolpath_gcode_snd (paths : List Path) (precision : Int) :
    (format_toolpath_gcode paths precision).2 =
      (paths.map fun path =>
        match path with
        | [] => ([] : List GCmd)
        | start :: rest =>
          GCmd.rapidXY start.x start.y :: rest.map fun q => GCmd.linearXY q.x q.y).flatten := by
  unfold format_toolpath_gcode
  dsimp only
  rw [gcode_paths_fold]
  simp

theorem gcode_layers_fold (layers : List Layer) (p : Int) (acc : List GCmd) :
    layers.foldl
      (fun acc layer => acc ++ (GCmd.rapidZ layer.z :: (format_toolpath_gcode layer.paths p).2))
      acc =
    acc ++ (layers.map fun layer =>
      GCmd.rapidZ layer.z :: (format_toolpath_gcode layer.paths p).2).flatten := by
  induction layers generalizing acc with
  | nil => simp
  | cons l ls ih => simp [ih]

/-! ## Claim C9 -/

/-- C9: the layered formatter emits, per layer in order, one height-change
command followed by, per non-empty path, a rapid move to the first point
point and a linear move per subsequent point, with empty paths emitting
nothing (this is exactly `gcode_layers_spec`, the description in the spec); and a
negative precision argument is clamped to 0 before formatting (both
overloads). -/
theorem format_toolpath_gcode_layers_spec (layers : List Layer) (precision : Int) :
    (format_toolpath_gcode_layers layers precision).2 = gcode_layers_spec layers ∧
    (format_toolpath_gcode_layers layers precision).1 =
      (if precision < 0 then 0 else precision) ∧
    (∀ paths : List Path,
      (format_toolpath_gcode paths precision).1 = (if precision < 0 then 0 else precision)) := by
  refine ⟨?_, rfl, fun paths => rfl⟩
  unfold format_toolpath_gcode_layers gcode_layers_spec
  dsimp only
  rw [gcode_layers_fold]
  simp [format_toolpath_gcode_snd]

end SimpleSlice
